import Mathlib

/-!
Shallow embedding of the text-extraction core of the `systemctl` crate
(src/lib.rs): exit-code classification (`systemctl_capture`), the
documentation-descriptor parser (`Doc.from_str`), the status-block
extractor (`create_unit`) and the listing parser (`list_units_full`).

Rust string primitives (split, trim, strip_prefix, lines, split_at, ...)
are modelled by structurally recursive functions over `String.data`
(`List Char`), so that every definition evaluates inside the kernel.
Machine integers: exit codes are `Int`; the `u64` pid parse is `Nat`
bounded by `2 ^ 64`.  Fallible Rust code returns `Except`; a Rust panic
(`unwrap` on `None`, slice index out of bounds, explicit `panic!`) is
modelled by the distinguished error constructor `CreateErr.panic` /
an `Except.error` carrying the panic message, which is *not* an
`std::io::Error` returned to the caller.
-/

set_option maxRecDepth 20000

/-- Model of Rust `str::strip_prefix`: first argument of the aux is the
pattern, second the target (both as char lists). -/
def listStripPre : List Char → List Char → Option (List Char)
  | [], cs => some cs
  | _ :: _, [] => none
  | p :: ps, c :: cs => if c = p then listStripPre ps cs else none

/-- Rust `s.strip_prefix(p)`. -/
def stripPre (s p : String) : Option String :=
  (listStripPre p.data s.data).map String.mk

/-- Rust `s.starts_with(p)`. -/
def rustStartsWith (s p : String) : Bool :=
  (listStripPre p.data s.data).isSome

/-- Rust `s.strip_suffix(p)`. -/
def stripSuf (s p : String) : Option String :=
  (listStripPre p.data.reverse s.data.reverse).map (fun cs => String.mk cs.reverse)

/-- Rust `s.ends_with(p)`. -/
def rustEndsWith (s p : String) : Bool :=
  (listStripPre p.data.reverse s.data.reverse).isSome

/-- Rust `s.contains(c)` for a `char` pattern. -/
def rustContainsChar (s : String) (c : Char) : Bool :=
  s.data.contains c

/-- Rust `str::trim_start` (whitespace per `Char.isWhitespace`). -/
def rustTrimStart (s : String) : String :=
  String.mk (s.data.dropWhile Char.isWhitespace)

/-- Rust `str::trim`. -/
def rustTrim (s : String) : String :=
  String.mk (((s.data.dropWhile Char.isWhitespace).reverse.dropWhile Char.isWhitespace).reverse)

/-- Splitter shared by the models of Rust `split(char)` and
`split_ascii_whitespace`: split a char list at every char satisfying `p`,
keeping empty pieces.  The result is always nonempty. -/
def splitPredAux (p : Char → Bool) : List Char → List (List Char)
  | [] => [[]]
  | c :: cs =>
    if p c then [] :: splitPredAux p cs
    else
      match splitPredAux p cs with
      | y :: ys => (c :: y) :: ys
      | [] => [[c]]

/-- Rust `s.split(c).collect::<Vec<_>>()` for a `char` separator. -/
def rustSplitChar (s : String) (c : Char) : List String :=
  (splitPredAux (fun x => x == c) s.data).map String.mk

/-- Rust ASCII whitespace (`char::is_ascii_whitespace`). -/
def isAsciiWhitespace (c : Char) : Bool :=
  c == ' ' || c == '\t' || c == '\n' || c == '\x0c' || c == '\r'

/-- Rust `s.split_ascii_whitespace().collect::<Vec<_>>()`. -/
def splitAsciiWhitespace (s : String) : List String :=
  ((splitPredAux isAsciiWhitespace s.data).filter (fun l => !l.isEmpty)).map String.mk

/-- Aux for Rust `str::split_once(char)`: split at the first occurrence. -/
def splitOnceCharAux (c : Char) : List Char → Option (List Char × List Char)
  | [] => none
  | x :: xs =>
    if x == c then some ([], xs)
    else
      match splitOnceCharAux c xs with
      | some p => some (x :: p.1, p.2)
      | none => none

/-- Rust `s.split_once(c)`. -/
def splitOnceChar (s : String) (c : Char) : Option (String × String) :=
  (splitOnceCharAux c s.data).map (fun p => (String.mk p.1, String.mk p.2))

/-- Rust `s.rsplit_once(c)`: split at the last occurrence. -/
def rsplitOnceChar (s : String) (c : Char) : Option (String × String) :=
  (splitOnceCharAux c s.data.reverse).map
    (fun p => (String.mk p.2.reverse, String.mk p.1.reverse))

/-- Rust `str::lines`: split on `'\n'`, no empty piece for a final
terminator, a trailing `'\r'` stripped from each line. -/
def rustLines (s : String) : List String :=
  match s.data with
  | [] => []
  | _ =>
    let parts := splitPredAux (fun c => c == '\n') s.data
    let parts := if parts.getLast? = some [] then parts.dropLast else parts
    parts.map (fun l => String.mk (if l.getLast? = some '\r' then l.dropLast else l))

/-- Aux for Rust `str::split_at(n)` (byte index): `none` models the panic
on an out-of-range index or a non-boundary index. -/
def splitAtBytesAux : List Char → Nat → Option (List Char × List Char)
  | cs, 0 => some ([], cs)
  | [], _ + 1 => none
  | c :: cs, n + 1 =>
    if c.utf8Size ≤ n + 1 then
      match splitAtBytesAux cs (n + 1 - c.utf8Size) with
      | some p => some (c :: p.1, p.2)
      | none => none
    else none

/-- Rust `s.split_at(n)`. -/
def splitAtBytes (s : String) (n : Nat) : Option (String × String) :=
  (splitAtBytesAux s.data n).map (fun p => (String.mk p.1, String.mk p.2))

/-- `itertools::join(items, sep)`. -/
def rustJoin (sep : String) : List String → String
  | [] => ""
  | [x] => x
  | x :: y :: ys => x ++ sep ++ rustJoin sep (y :: ys)

/-- Digit accumulator for the model of `str::parse::<u64>()`. -/
def natOfDigits : List Char → Nat → Option Nat
  | [], acc => some acc
  | c :: cs, acc =>
    if c.isDigit then natOfDigits cs (acc * 10 + (c.toNat - 48)) else none

/-- Rust `s.parse::<u64>()`: optional leading `'+'`, at least one digit,
overflow above `u64::MAX` is an error. -/
def rustParseU64 (s : String) : Option Nat :=
  match (match s.data with | '+' :: cs => cs | cs => cs) with
  | [] => none
  | cs =>
    match natOfDigits cs 0 with
    | some n => if n < 2 ^ 64 then some n else none
    | none => none

/-- Rust `proc.replace(&['(', ')'][..], "")`. -/
def replaceParens (s : String) : String :=
  String.mk (s.data.filter (fun c => !(c == '(' || c == ')')))

/-- `std::io::ErrorKind`, restricted to the kinds the crate constructs. -/
inductive ErrorKind where
  | notFound
  | permissionDenied
  | other
  | interrupted
  | invalidData
  deriving DecidableEq, Repr

/-- `std::io::Error`, as a kind plus message. -/
structure IOError where
  kind : ErrorKind
  msg : String
  deriving DecidableEq, Repr

/-- `std::process::ExitStatus`: an exit code (`i32`) or death by signal
(`code()` returned `None`). -/
inductive ExitStatus where
  | code (c : Int)
  | signal
  deriving DecidableEq, Repr

/-- `RunResult` (src/lib.rs lines 29-34). -/
structure RunResult where
  stdout : String
  stderr : String
  exit_status : ExitStatus
  deriving DecidableEq, Repr

/-- `SystemCtl::systemctl_capture` (src/lib.rs lines 62-105), as a pure
function of the completed child's exit status and its drained streams.
Codes `0`, `1`, `3` fall through to the `Ok(RunResult)` return; `4`
returns a `PermissionDenied` error; any other code an `Other` error
carrying the code; signal death an `Interrupted` error. -/
def systemctl_capture (exit : ExitStatus) (stdout stderr : String) :
    Except IOError RunResult :=
  match exit with
  | .code c =>
    if c = 0 ∨ c = 1 ∨ c = 3 then
      .ok ⟨stdout, stderr, exit⟩
    else if c = 4 then
      .error ⟨.permissionDenied, "Missing Priviledges or Unit not found"⟩
    else
      .error ⟨.other, "Process exited with code: " ++ toString c⟩
  | .signal => .error ⟨.interrupted, "Process terminated by signal"⟩

/-- `AutoStartStatus` (src/lib.rs lines 417-436). -/
inductive AutoStartStatus where
  | Static
  | Enabled
  | EnabledRuntime
  | Disabled
  | Generated
  | Indirect
  | Transient
  deriving DecidableEq, Repr

/-- `AutoStartStatus::from_str` (derived by `strum::EnumString` from the
`serialize` attributes); `none` models strum's `ParseError`. -/
def AutoStartStatus.from_str (s : String) : Option AutoStartStatus :=
  if s = "static" then some .Static
  else if s = "enabled" then some .Enabled
  else if s = "enabled-runtime" then some .EnabledRuntime
  else if s = "disabled" then some .Disabled
  else if s = "generated" then some .Generated
  else if s = "indirect" then some .Indirect
  else if s = "transient" then some .Transient
  else none

/-- `Type` (src/lib.rs lines 438-461); primed because `Type` is a Lean
keyword. -/
inductive Type' where
  | AutoMount
  | Mount
  | Service
  | Scope
  | Socket
  | Slice
  | Timer
  | Path
  | Target
  deriving DecidableEq, Repr

/-- `Type::from_str` (derived by `strum::EnumString`). -/
def Type'.from_str (s : String) : Option Type' :=
  if s = "automount" then some .AutoMount
  else if s = "mount" then some .Mount
  else if s = "service" then some .Service
  else if s = "scope" then some .Scope
  else if s = "socket" then some .Socket
  else if s = "slice" then some .Slice
  else if s = "timer" then some .Timer
  else if s = "path" then some .Path
  else if s = "target" then some .Target
  else none

/-- `State` (src/lib.rs lines 463-472); `Masked` is the `Default`. -/
inductive State where
  | Masked
  | Loaded
  deriving DecidableEq, Repr

/-- `Doc` (src/lib.rs lines 499-508). -/
inductive Doc where
  | Man (s : String)
  | Url (s : String)
  deriving DecidableEq, Repr

/-- `Doc::from_str` (src/lib.rs lines 527-551): exactly one `:` separator
expected; `man` payload truncated at the first `(`; `http`/`https`
re-prefixed onto the trimmed payload; anything else is an
`InvalidData` error. -/
def Doc.from_str (status : String) : Except IOError Doc :=
  match rustSplitChar status ':' with
  | [i0, i1] =>
    if i0 = "man" then .ok (.Man ((rustSplitChar i1 '(').headD ""))
    else if i0 = "http" then .ok (.Url ("http:" ++ rustTrim i1))
    else if i0 = "https" then .ok (.Url ("https:" ++ rustTrim i1))
    else .error ⟨.invalidData, "unknown type of doc"⟩
  | _ => .error ⟨.invalidData, "malformed doc descriptor"⟩

/-- `UnitList` (src/lib.rs lines 404-415). -/
structure UnitList where
  unit_file : String
  state : String
  vendor_preset : Option Bool
  deriving DecidableEq, Repr

/-- `Unit` (src/lib.rs lines 553-615); primed because `Unit` is Lean's
unit type. -/
structure Unit' where
  name : String
  utype : Type'
  description : Option String
  state : State
  auto_start : AutoStartStatus
  active : Bool
  preset : Bool
  script : String
  restart_policy : Option String
  kill_mode : Option String
  process : Option String
  pid : Option Nat
  tasks : Option Nat
  cpu : Option String
  memory : Option String
  mounted : Option String
  mountpoint : Option String
  docs : Option (List Doc)
  wants : Option (List String)
  wanted_by : Option (List String)
  also : Option (List String)
  before : Option (List String)
  after : Option (List String)
  exec_start : Option String
  exec_reload : Option String
  transient : Bool
  deriving DecidableEq, Repr

/-- `Unit::default()` (derived `Default`): enums take their `#[default]`
variant (`Service`, `Masked`, `Disabled`), options are `None`, strings
empty, booleans false. -/
def Unit'.default : Unit' :=
  { name := "", utype := .Service, description := none, state := .Masked,
    auto_start := .Disabled, active := false, preset := false, script := "",
    restart_policy := none, kill_mode := none, process := none, pid := none,
    tasks := none, cpu := none, memory := none, mounted := none,
    mountpoint := none, docs := none, wants := none, wanted_by := none,
    also := none, before := none, after := none, exec_start := none,
    exec_reload := none, transient := false }

/-- Errors out of `create_unit`: an `std::io::Error` returned to the
caller (`io`), or a Rust panic aborting the call (`panic`) - the two are
distinct observations of the Rust code. -/
inductive CreateErr where
  | io (e : IOError)
  | panic (msg : String)
  deriving DecidableEq, Repr

/-- The fallback decode of the auto-start token in `create_unit`
(src/lib.rs lines 306-309): an unrecognized token degrades to
`Disabled`. -/
def autoStartDecode (s : String) : AutoStartStatus :=
  match AutoStartStatus.from_str s with
  | some x => x
  | none => .Disabled

/-- The `Loaded: ` branch of `create_unit`'s line scan (src/lib.rs lines
298-316), applied to the line with `"Loaded: "` already stripped.  The
`loaded (...)` form unwraps `(` and `)` and indexes `items[1]` - the
`Except.error` cases model those panics.  `masked` just sets the state. -/
def handleLoaded (u : Unit') (line : String) : Except String Unit' :=
  match stripPre line "loaded " with
  | some rest =>
    match stripPre rest "(" with
    | none => .error "called Option::unwrap() on a None value"
    | some r1 =>
      match stripSuf r1 ")" with
      | none => .error "called Option::unwrap() on a None value"
      | some r2 =>
        match rustSplitChar r2 ';' with
        | i0 :: i1 :: tl =>
          match tl with
          | i2 :: _ =>
            .ok { u with state := State.Loaded, script := rustTrim i0,
                         auto_start := autoStartDecode (rustTrim i1),
                         preset := rustEndsWith (rustTrim i2) "enabled" }
          | [] =>
            .ok { u with state := State.Loaded, script := rustTrim i0,
                         auto_start := autoStartDecode (rustTrim i1) }
        | _ => .error "index out of bounds: the len is 1 but the index is 1"
  | none =>
    if rustStartsWith line "masked" then .ok { u with state := State.Masked }
    else .ok u

/-- The `Main PID: ` / `Cntrl PID: ` handler of `create_unit`
(src/lib.rs lines 336-347): split on the first space, pid parsed with
`unwrap_or(0)`, parentheses stripped from the process name. -/
def mainPid (u : Unit') (line : String) : Unit' :=
  match splitOnceChar line ' ' with
  | some p =>
    { u with pid := some ((rustParseU64 p.1).getD 0),
             process := some (replaceParens p.2) }
  | none => u

/-- The non-`Loaded:` part of `create_unit`'s prefix-dispatch chain
(src/lib.rs lines 317-373), applied to the already trim_start-ed line.
Returns the updated unit and the updated `is_doc` flag.  Never fails. -/
def scanOther (u : Unit') (is_doc : Bool) (line : String) : Unit' × Bool :=
  match stripPre line "Transient: " with
  | some l => (if l = "yes" then { u with transient := true } else u, is_doc)
  | none =>
  if rustStartsWith line "Active: " then (u, is_doc)
  else match stripPre line "Docs: " with
  | some l =>
    (match Doc.from_str l with
     | .ok d => { u with docs := some (u.docs.getD [] ++ [d]) }
     | .error _ => u, true)
  | none =>
  match stripPre line "What: " with
  | some l => ({ u with mounted := some l }, is_doc)
  | none =>
  match stripPre line "Where: " with
  | some l => ({ u with mountpoint := some l }, is_doc)
  | none =>
  match stripPre line "Main PID: " with
  | some l => (mainPid u l, is_doc)
  | none =>
  match stripPre line "Cntrl PID: " with
  | some l => (mainPid u l, is_doc)
  | none =>
  if rustStartsWith line "Process: " then (u, is_doc)
  else if rustStartsWith line "CGroup: " then (u, is_doc)
  else if rustStartsWith line "Tasks: " then (u, is_doc)
  else match stripPre line "Memory: " with
  | some l => ({ u with memory := some (rustTrim l) }, is_doc)
  | none =>
  match stripPre line "CPU: " with
  | some l => ({ u with cpu := some (rustTrim l) }, is_doc)
  | none =>
    (if is_doc then
      match Doc.from_str (rustTrimStart line) with
      | .ok d => { u with docs := some (u.docs.getD [] ++ [d]) }
      | .error _ => u
     else u, is_doc)

/-- One iteration of `create_unit`'s `for line in lines` loop
(src/lib.rs lines 296-374): trim_start, then the `Loaded: ` branch
(which may panic) or the rest of the chain. -/
def scanLine (u : Unit') (is_doc : Bool) (line0 : String) :
    Except String (Unit' × Bool) :=
  let line := rustTrimStart line0
  match stripPre line "Loaded: " with
  | some l => (handleLoaded u l).map (fun v => (v, is_doc))
  | none => .ok (scanOther u is_doc line)

/-- The whole status-line scan loop of `create_unit`. -/
def scanLines : Unit' → Bool → List String → Except String Unit'
  | u, _, [] => .ok u
  | u, d, l :: ls =>
    match scanLine u d l with
    | .error e => .error e
    | .ok p => scanLines p.1 p.2 ls

/-- One `Key=Value` directive of the `cat` dump (src/lib.rs lines
381-395): recognized keys append to list fields or set scalar fields,
unknown keys are ignored. -/
def catStep (u : Unit') (kv : String × String) : Unit' :=
  if kv.1 = "Wants" then { u with wants := some (u.wants.getD [] ++ [kv.2]) }
  else if kv.1 = "WantedBy" then { u with wanted_by := some (u.wanted_by.getD [] ++ [kv.2]) }
  else if kv.1 = "Also" then { u with also := some (u.also.getD [] ++ [kv.2]) }
  else if kv.1 = "Before" then { u with before := some (u.before.getD [] ++ [kv.2]) }
  else if kv.1 = "After" then { u with after := some (u.after.getD [] ++ [kv.2]) }
  else if kv.1 = "ExecStart" then { u with exec_start := some kv.2 }
  else if kv.1 = "ExecReload" then { u with exec_reload := some kv.2 }
  else if kv.1 = "Restart" then { u with restart_policy := some kv.2 }
  else if kv.1 = "KillMode" then { u with kill_mode := some kv.2 }
  else u

/-- The directive-dump pass of `create_unit` (src/lib.rs lines 376-396):
lines without a `=` are skipped (`filter_map` over `split_once('=')`). -/
def applyCat (u : Unit') (stdout : String) : Unit' :=
  ((rustLines stdout).filterMap (fun line => splitOnceChar line '=')).foldl catStep u

/-- The pure part of `create_unit` that consumes the captured status text
(src/lib.rs lines 273-374 and 399): the header line is `split_at(3)`
after `lines().next().unwrap()`, first whitespace token is the dotted
name (trimmed), a following `-` token introduces the description, the
name is `rsplit_once('.')` into base name and type suffix (`expect`
panics when there is no `.`; an unrecognized suffix is `panic!`), then
the remaining lines are scanned.  The base name is stored in `u.name`
(in the Rust source the `name` binding is shadowed by the base name, and
the field is assigned at the end of `create_unit`). -/
def create_unit_scan (stdout : String) : Except CreateErr Unit' :=
  match rustLines stdout with
  | [] => .error (.panic "called Option::unwrap() on a None value")
  | next :: rest =>
    match splitAtBytes next 3 with
    | none => .error (.panic "byte index 3 is out of bounds")
    | some sp =>
      match splitAsciiWhitespace sp.2 with
      | [] => .error (.panic "called Option::unwrap() on a None value")
      | nameTok :: items =>
        let name_raw := rustTrim nameTok
        let description : Option String :=
          match items with
          | delim :: restItems =>
            if rustTrim delim = "-" then some (rustJoin " " restItems) else none
          | [] => none
        match rsplitOnceChar name_raw '.' with
        | none => .error (.panic "Unit is missing a Type, this should not happen!")
        | some p =>
          match Type'.from_str p.2 with
          | none => .error (.panic ("For \"" ++ name_raw ++ "\" -> Matching variant not found"))
          | some t =>
            match scanLines { Unit'.default with description := description, utype := t } false rest with
            | .error e => .error (.panic e)
            | .ok u => .ok { u with name := p.1 }

/-- `SystemCtl::create_unit` (src/lib.rs lines 264-401) as a pure
function of the I/O-boundary results it consumes: the result of the
`exists` probe, of the `status` capture, of the `cat` capture and of the
`is_active` probe.  `Ok(false)` from `exists` is a `NotFound` error; an
`Err` from `exists` falls through.  Errors of `status` and `is_active`
propagate (`?`); an error of `cat` is silently ignored. -/
def create_unit (name : String) (existsResult : Except IOError Bool)
    (statusResult catResult : Except IOError RunResult)
    (isActiveResult : Except IOError Bool) : Except CreateErr Unit' :=
  match existsResult with
  | .ok false =>
    .error (.io ⟨.notFound, "Unit or service \"" ++ name ++ "\" does not exist"⟩)
  | _ =>
    match statusResult with
    | .error e => .error (.io e)
    | .ok st =>
      match create_unit_scan st.stdout with
      | .error e => .error e
      | .ok u =>
        let u' := match catResult with
          | .ok content => applyCat u content.stdout
          | .error _ => u
        match isActiveResult with
        | .error e => .error (.io e)
        | .ok a => .ok { u' with active := a }

/-- The row filter of `list_units_full` (src/lib.rs lines 218-221):
keep lines containing a `.` that do not end with one. -/
def list_units_filter (stdout : String) : List String :=
  (rustLines stdout).filter (fun line => rustContainsChar line '.' && !(rustEndsWith line "."))

/-- The row loop of `list_units_full` (src/lib.rs lines 223-236):
`parsed[2]` / `parsed[1]` on a row with fewer than 3 columns is an index
panic, modelled by `Except.error`. -/
def list_units_rows : List String → Except String (List UnitList)
  | [] => .ok []
  | l :: ls =>
    match splitAsciiWhitespace l with
    | p0 :: p1 :: p2 :: _ =>
      let vendor_preset :=
        if p2 = "-" then none
        else if p2 = "enabled" then some true
        else if p2 = "disabled" then some false
        else none
      (match list_units_rows ls with
       | .ok rest => .ok ({ unit_file := p0, state := p1, vendor_preset := vendor_preset } :: rest)
       | .error e => .error e)
    | _ => .error "index out of bounds: the len is less than 3"

/-- `SystemCtl::list_units_full` (src/lib.rs lines 198-238) as a pure
function of the captured listing. -/
def list_units_full (capture : Except IOError RunResult) :
    Except CreateErr (List UnitList) :=
  match capture with
  | .error e => .error (.io e)
  | .ok content =>
    match list_units_rows (list_units_filter content.stdout) with
    | .ok rows => .ok rows
    | .error m => .error (.panic m)

/-- The header-line portion of `create_unit` (src/lib.rs lines 275-279)
as an observation: the trimmed first whitespace token after the
3-byte glyph of the first status line, when all of that succeeds. -/
def headerNameRaw (stdout : String) : Option String :=
  match rustLines stdout with
  | [] => none
  | next :: _ =>
    match splitAtBytes next 3 with
    | none => none
    | some sp =>
      match splitAsciiWhitespace sp.2 with
      | [] => none
      | tok :: _ => some (rustTrim tok)

/-- Observation: does a status line carry the `Loaded: ` prefix after
trim_start (the dispatch test of src/lib.rs line 298)? -/
def isLoadedLine (l : String) : Bool :=
  (stripPre (rustTrimStart l) "Loaded: ").isSome

/-- Observation: the `;`-separated fields of the parenthetical of a
well-formed `Loaded: loaded (...)` status line (src/lib.rs lines
300-304), `none` for any other line. -/
def loadedFieldsOf (l : String) : Option (List String) :=
  match stripPre (rustTrimStart l) "Loaded: " with
  | none => none
  | some r =>
    match stripPre r "loaded " with
    | none => none
    | some rest =>
      match stripPre rest "(" with
      | none => none
      | some r1 =>
        match stripSuf r1 ")" with
        | none => none
        | some r2 => some (rustSplitChar r2 ';')

/-- Observation: the first `;`-field (the script path, src/lib.rs line
305) of a well-formed `Loaded: loaded (...)` line is non-blank;
vacuously true for every other line. -/
def scriptFieldNonblank (l : String) : Bool :=
  match loadedFieldsOf l with
  | some (i0 :: _) => !(rustTrim i0 == "")
  | _ => true

-- bridging lemmas
theorem stripPre_eq_none_of_not_starts {s p : String}
    (h : rustStartsWith s p = false) : stripPre s p = none := by
  unfold stripPre
  unfold rustStartsWith at h
  cases hls : listStripPre p.data s.data with
  | none => rfl
  | some r => rw [hls] at h; simp at h

theorem isLoadedLine_false_strip {l : String}
    (h : isLoadedLine l = false) :
    stripPre (rustTrimStart l) "Loaded: " = none := by
  unfold isLoadedLine at h
  cases hls : stripPre (rustTrimStart l) "Loaded: " with
  | none => rfl
  | some r => rw [hls] at h; simp at h

theorem isLoadedLine_true_strip {l : String}
    (h : isLoadedLine l = true) :
    ∃ r, stripPre (rustTrimStart l) "Loaded: " = some r := by
  unfold isLoadedLine at h
  cases hls : stripPre (rustTrimStart l) "Loaded: " with
  | none => rw [hls] at h; simp at h
  | some r => exact ⟨r, rfl⟩

-- scanOther preserves state, script and the nine directive fields
theorem scanOther_fields (u : Unit') (d : Bool) (l : String) :
    (scanOther u d l).1.state = u.state ∧
    (scanOther u d l).1.script = u.script ∧
    (scanOther u d l).1.wants = u.wants ∧
    (scanOther u d l).1.wanted_by = u.wanted_by ∧
    (scanOther u d l).1.also = u.also ∧
    (scanOther u d l).1.before = u.before ∧
    (scanOther u d l).1.after = u.after ∧
    (scanOther u d l).1.exec_start = u.exec_start ∧
    (scanOther u d l).1.exec_reload = u.exec_reload ∧
    (scanOther u d l).1.restart_policy = u.restart_policy ∧
    (scanOther u d l).1.kill_mode = u.kill_mode := by
  unfold scanOther mainPid
  repeat' split <;> first | simp_all | (repeat exact ⟨rfl, rfl⟩)

-- handleLoaded: directive preservation plus the shape of a success
theorem handleLoaded_fields {u u' : Unit'} {r : String}
    (h : handleLoaded u r = .ok u') :
    (u'.wants = u.wants ∧ u'.wanted_by = u.wanted_by ∧ u'.also = u.also ∧
     u'.before = u.before ∧ u'.after = u.after ∧ u'.exec_start = u.exec_start ∧
     u'.exec_reload = u.exec_reload ∧ u'.restart_policy = u.restart_policy ∧
     u'.kill_mode = u.kill_mode) ∧
    ((∃ rest r1 r2 i0 i1 tl,
        stripPre r "loaded " = some rest ∧
        stripPre rest "(" = some r1 ∧
        stripSuf r1 ")" = some r2 ∧
        rustSplitChar r2 ';' = i0 :: i1 :: tl ∧
        u'.state = .Loaded ∧ u'.script = rustTrim i0) ∨
      (stripPre r "loaded " = none ∧ u'.script = u.script ∧
        (u'.state = .Masked ∨ u'.state = u.state))) := by
  unfold handleLoaded at h
  cases hld : stripPre r "loaded " with
  | some rest =>
    rw [hld] at h; dsimp only at h
    cases h1 : stripPre rest "(" with
    | none => rw [h1] at h; dsimp only at h; exact (Except.noConfusion h)
    | some r1 =>
      rw [h1] at h; dsimp only at h
      cases h2 : stripSuf r1 ")" with
      | none => rw [h2] at h; dsimp only at h; exact (Except.noConfusion h)
      | some r2 =>
        rw [h2] at h; dsimp only at h
        cases h3 : rustSplitChar r2 ';' with
        | nil => rw [h3] at h; dsimp only at h; exact (Except.noConfusion h)
        | cons i0 tl0 =>
          cases tl0 with
          | nil => rw [h3] at h; dsimp only at h; exact (Except.noConfusion h)
          | cons i1 tl =>
            rw [h3] at h; dsimp only at h
            cases tl with
            | nil =>
              injection h with h'
              subst h'
              exact ⟨⟨rfl, rfl, rfl, rfl, rfl, rfl, rfl, rfl, rfl⟩,
                Or.inl ⟨rest, r1, r2, i0, i1, [], rfl, h1, h2, h3, rfl, rfl⟩⟩
            | cons i2 tl2 =>
              injection h with h'
              subst h'
              exact ⟨⟨rfl, rfl, rfl, rfl, rfl, rfl, rfl, rfl, rfl⟩,
                Or.inl ⟨rest, r1, r2, i0, i1, i2 :: tl2, rfl, h1, h2, h3, rfl, rfl⟩⟩
  | none =>
    rw [hld] at h; dsimp only at h
    by_cases hm : rustStartsWith r "masked" = true
    · rw [if_pos hm] at h
      injection h with h'
      subst h'
      exact ⟨⟨rfl, rfl, rfl, rfl, rfl, rfl, rfl, rfl, rfl⟩, Or.inr ⟨rfl, rfl, Or.inl rfl⟩⟩
    · rw [if_neg hm] at h
      injection h with h'
      subst h'
      exact ⟨⟨rfl, rfl, rfl, rfl, rfl, rfl, rfl, rfl, rfl⟩, Or.inr ⟨rfl, rfl, Or.inr rfl⟩⟩

-- scanLine preserves the nine directive fields
theorem scanLine_directives {u : Unit'} {d : Bool} {l : String} {p : Unit' × Bool}
    (h : scanLine u d l = .ok p) :
    p.1.wants = u.wants ∧ p.1.wanted_by = u.wanted_by ∧ p.1.also = u.also ∧
    p.1.before = u.before ∧ p.1.after = u.after ∧ p.1.exec_start = u.exec_start ∧
    p.1.exec_reload = u.exec_reload ∧ p.1.restart_policy = u.restart_policy ∧
    p.1.kill_mode = u.kill_mode := by
  unfold scanLine at h
  dsimp only at h
  cases hld : stripPre (rustTrimStart l) "Loaded: " with
  | some r =>
    rw [hld] at h; dsimp only at h
    cases hh : handleLoaded u r with
    | error e => rw [hh] at h; exact (Except.noConfusion h)
    | ok v =>
      rw [hh] at h; dsimp only [Except.map] at h
      injection h with h'
      subst h'
      exact (handleLoaded_fields hh).1
  | none =>
    rw [hld] at h; dsimp only at h
    injection h with h'
    subst h'
    exact (scanOther_fields u d (rustTrimStart l)).2.2

-- scanLines preserves the nine directive fields
theorem scanLines_directives {ls : List String} : ∀ {u : Unit'} {d : Bool} {u' : Unit'},
    scanLines u d ls = .ok u' →
    u'.wants = u.wants ∧ u'.wanted_by = u.wanted_by ∧ u'.also = u.also ∧
    u'.before = u.before ∧ u'.after = u.after ∧ u'.exec_start = u.exec_start ∧
    u'.exec_reload = u.exec_reload ∧ u'.restart_policy = u.restart_policy ∧
    u'.kill_mode = u.kill_mode := by
  induction ls with
  | nil =>
    intro u d u' h
    unfold scanLines at h
    injection h with h'
    subst h'
    exact ⟨rfl, rfl, rfl, rfl, rfl, rfl, rfl, rfl, rfl⟩
  | cons l ls ih =>
    intro u d u' h
    unfold scanLines at h
    cases hs : scanLine u d l with
    | error e => rw [hs] at h; exact (Except.noConfusion h)
    | ok p =>
      rw [hs] at h; dsimp only at h
      obtain ⟨w1, w2, w3, w4, w5, w6, w7, w8, w9⟩ := scanLine_directives hs
      obtain ⟨v1, v2, v3, v4, v5, v6, v7, v8, v9⟩ := ih h
      exact ⟨v1.trans w1, v2.trans w2, v3.trans w3, v4.trans w4, v5.trans w5,
             v6.trans w6, v7.trans w7, v8.trans w8, v9.trans w9⟩

-- a scan over lines none of which is a Loaded: line preserves state and script
theorem scanLines_no_loaded {ls : List String} : ∀ {u : Unit'} {d : Bool} {u' : Unit'},
    (∀ l ∈ ls, isLoadedLine l = false) →
    scanLines u d ls = .ok u' →
    u'.state = u.state ∧ u'.script = u.script := by
  induction ls with
  | nil =>
    intro u d u' _ h
    unfold scanLines at h
    injection h with h'
    subst h'
    exact ⟨rfl, rfl⟩
  | cons l ls ih =>
    intro u d u' hall h
    unfold scanLines at h
    have hl : isLoadedLine l = false := hall l (List.mem_cons_self l ls)
    have hstrip := isLoadedLine_false_strip hl
    unfold scanLine at h
    dsimp only at h
    rw [hstrip] at h; dsimp only at h
    have hrest : ∀ x ∈ ls, isLoadedLine x = false :=
      fun x hx => hall x (List.mem_cons_of_mem l hx)
    obtain ⟨v1, v2⟩ := ih hrest h
    obtain ⟨w1, w2, _⟩ := scanOther_fields u d (rustTrimStart l)
    exact ⟨v1.trans w1, v2.trans w2⟩

-- catStep preserves state and script
theorem catStep_state_script (u : Unit') (kv : String × String) :
    (catStep u kv).state = u.state ∧ (catStep u kv).script = u.script := by
  unfold catStep
  split_ifs <;> exact ⟨rfl, rfl⟩

-- applyCat preserves state and script
theorem applyCat_state_script (u : Unit') (s : String) :
    (applyCat u s).state = u.state ∧ (applyCat u s).script = u.script := by
  unfold applyCat
  generalize ((rustLines s).filterMap (fun line => splitOnceChar line '=')) = kvs
  induction kvs generalizing u with
  | nil => exact ⟨rfl, rfl⟩
  | cons kv kvs ih =>
    obtain ⟨v1, v2⟩ := ih (catStep u kv)
    obtain ⟨w1, w2⟩ := catStep_state_script u kv
    exact ⟨v1.trans w1, v2.trans w2⟩

-- count of Loaded: lines, link between handleLoaded success and loadedFieldsOf
theorem loadedFieldsOf_of_chain {l r rest r1 r2 : String}
    (h0 : stripPre (rustTrimStart l) "Loaded: " = some r)
    (h1 : stripPre r "loaded " = some rest)
    (h2 : stripPre rest "(" = some r1)
    (h3 : stripSuf r1 ")" = some r2) :
    loadedFieldsOf l = some (rustSplitChar r2 ';') := by
  unfold loadedFieldsOf
  rw [h0]; dsimp only
  rw [h1]; dsimp only
  rw [h2]; dsimp only
  rw [h3]

-- the scan invariant behind the amended C8
theorem scanLines_state_script {ls : List String} : ∀ {u : Unit'} {d : Bool} {u' : Unit'},
    u.state = .Masked → u.script = "" →
    ((ls.filter isLoadedLine).length ≤ 1) →
    (∀ l ∈ ls, scriptFieldNonblank l = true) →
    scanLines u d ls = .ok u' →
    (u'.state = .Loaded → u'.script ≠ "") ∧ (u'.state = .Masked → u'.script = "") := by
  induction ls with
  | nil =>
    intro u d u' hm hs _ _ h
    unfold scanLines at h
    injection h with h'
    subst h'
    constructor
    · intro hL; rw [hm] at hL; exact absurd hL (by simp)
    · intro _; exact hs
  | cons l ls ih =>
    intro u d u' hm hs hcount hblank h
    unfold scanLines at h
    cases hsl : scanLine u d l with
    | error e => rw [hsl] at h; exact (Except.noConfusion h)
    | ok p =>
      rw [hsl] at h; dsimp only at h
      cases hL : isLoadedLine l with
      | false =>
        -- the line is not a Loaded: line: state and script are untouched
        have hstrip := isLoadedLine_false_strip hL
        unfold scanLine at hsl
        dsimp only at hsl
        rw [hstrip] at hsl
        dsimp only at hsl
        injection hsl with h'
        have hcount' : ((ls.filter isLoadedLine).length ≤ 1) := by
          rw [List.filter_cons_of_neg (by simp [hL])] at hcount
          exact hcount
        have hblank' : ∀ x ∈ ls, scriptFieldNonblank x = true :=
          fun x hx => hblank x (List.mem_cons_of_mem l hx)
        have hps : p.1.state = u.state ∧ p.1.script = u.script := by
          rw [← h']
          obtain ⟨w1, w2, _⟩ := scanOther_fields u d (rustTrimStart l)
          exact ⟨w1, w2⟩
        exact ih (hps.1.trans hm) (hps.2.trans hs) hcount' hblank' h
      | true =>
        -- the single Loaded: line: afterwards no further Loaded: line exists
        obtain ⟨r, hstrip⟩ := isLoadedLine_true_strip hL
        unfold scanLine at hsl
        dsimp only at hsl
        rw [hstrip] at hsl
        dsimp only at hsl
        cases hh : handleLoaded u r with
        | error e => rw [hh] at hsl; exact (Except.noConfusion hsl)
        | ok v =>
          rw [hh] at hsl; dsimp only [Except.map] at hsl
          injection hsl with h'
          have hcount' : (ls.filter isLoadedLine).length = 0 := by
            rw [List.filter_cons_of_pos (by simp [hL])] at hcount
            simp only [List.length_cons] at hcount
            omega
          have hnol : ∀ x ∈ ls, isLoadedLine x = false := by
            intro x hx
            have := List.length_eq_zero.mp hcount'
            by_contra hxl
            have hxl' : isLoadedLine x = true := by
              cases hxt : isLoadedLine x with
              | true => rfl
              | false => exact absurd hxt hxl
            have : x ∈ ls.filter isLoadedLine := List.mem_filter.mpr ⟨hx, hxl'⟩
            rw [List.length_eq_zero.mp hcount'] at this
            exact absurd this (List.not_mem_nil x)
          have hpres : u'.state = p.1.state ∧ u'.script = p.1.script :=
            scanLines_no_loaded hnol h
          have hv : p.1 = v := by rw [← h']
          -- case on what handleLoaded did
          rcases (handleLoaded_fields hh).2 with
            ⟨rest, r1, r2, i0, i1, tl, k1, k2, k3, k4, k5, k6⟩ | ⟨_, k2, k3⟩
          · -- loaded (...) form: state Loaded, script is the trimmed first field
            have hfields := loadedFieldsOf_of_chain hstrip k1 k2 k3
            have hnb := hblank l (List.mem_cons_self l ls)
            unfold scriptFieldNonblank at hnb
            rw [hfields, k4] at hnb
            dsimp only at hnb
            constructor
            · intro _
              rw [hpres.2, hv, k6]
              intro hemp
              rw [hemp] at hnb
              simp at hnb
            · intro hMk
              rw [hpres.1, hv, k5] at hMk
              exact absurd hMk (by simp)
          · -- masked or unrecognized: script is still the pristine one
            constructor
            · intro hLd
              rw [hpres.1, hv] at hLd
              rcases k3 with k3 | k3
              · rw [k3] at hLd; exact absurd hLd (by simp)
              · rw [k3, hm] at hLd; exact absurd hLd (by simp)
            · intro _
              rw [hpres.2, hv, k2]
              exact hs

-- splitPredAux produces a nonempty list whose head is the longest
-- prefix of chars not satisfying the predicate
theorem splitPredAux_ne_nil (p : Char → Bool) (l : List Char) :
    splitPredAux p l ≠ [] := by
  cases l with
  | nil => simp [splitPredAux]
  | cons c cs =>
    unfold splitPredAux
    by_cases h : p c
    · simp [h]
    · simp only [h]
      cases hr : splitPredAux p cs with
      | nil => simp
      | cons y ys => simp

theorem splitPredAux_head (p : Char → Bool) (l : List Char) :
    (splitPredAux p l).headD [] = l.takeWhile (fun c => !p c) := by
  induction l with
  | nil => rfl
  | cons c cs ih =>
    unfold splitPredAux
    by_cases h : p c
    · simp [h, List.takeWhile_cons, List.headD]
    · simp only [h, if_neg, Bool.false_eq_true, not_false_eq_true]
      cases hr : splitPredAux p cs with
      | nil => exact absurd hr (splitPredAux_ne_nil p cs)
      | cons y ys =>
        rw [hr] at ih
        simp only [List.headD] at ih ⊢
        rw [List.takeWhile_cons]
        simp [h, ih]

-- the head of a Rust char split is the prefix before the first separator
theorem rustSplitChar_head (s : String) (c : Char) :
    (rustSplitChar s c).headD "" = String.mk (s.data.takeWhile (fun x => !(x == c))) := by
  unfold rustSplitChar
  cases hr : splitPredAux (fun x => x == c) s.data with
  | nil => exact absurd hr (splitPredAux_ne_nil _ s.data)
  | cons y ys =>
    have := splitPredAux_head (fun x => x == c) s.data
    rw [hr] at this
    simp only [List.headD] at this ⊢
    simp only [List.map]
    rw [this]

-- inversion of a successful create_unit
theorem create_unit_ok {name : String} {ex : Except IOError Bool} {st : RunResult}
    {cat : Except IOError RunResult} {act : Except IOError Bool} {u : Unit'}
    (h : create_unit name ex (.ok st) cat act = .ok u) :
    ∃ u0 a, create_unit_scan st.stdout = .ok u0 ∧ act = .ok a ∧
      u = { (match cat with
             | .ok content => applyCat u0 content.stdout
             | .error _ => u0) with active := a } := by
  unfold create_unit at h
  have main : (match create_unit_scan st.stdout with
      | .error e => Except.error e
      | .ok u0 =>
        match act with
        | .error e => Except.error (CreateErr.io e)
        | .ok a =>
          Except.ok { (match cat with
                       | .ok content => applyCat u0 content.stdout
                       | .error _ => u0) with active := a }) = .ok u →
      ∃ u0 a, create_unit_scan st.stdout = .ok u0 ∧ act = .ok a ∧
        u = { (match cat with
               | .ok content => applyCat u0 content.stdout
               | .error _ => u0) with active := a } := by
    intro hm
    cases hscan : create_unit_scan st.stdout with
    | error e => rw [hscan] at hm; exact (Except.noConfusion hm)
    | ok u0 =>
      rw [hscan] at hm; dsimp only at hm
      cases act with
      | error e => exact (Except.noConfusion hm)
      | ok a =>
        injection hm with h'
        exact ⟨u0, a, rfl, rfl, h'.symm⟩
  cases ex with
  | error e => exact main h
  | ok b =>
    cases b with
    | false => exact (Except.noConfusion h)
    | true => exact main h

-- inversion of a successful create_unit_scan
theorem create_unit_scan_ok {stdout : String} {u0 : Unit'}
    (h : create_unit_scan stdout = .ok u0) :
    ∃ next rest sp tok items dsc p t u1,
      rustLines stdout = next :: rest ∧
      splitAtBytes next 3 = some sp ∧
      splitAsciiWhitespace sp.2 = tok :: items ∧
      rsplitOnceChar (rustTrim tok) '.' = some p ∧
      Type'.from_str p.2 = some t ∧
      scanLines { Unit'.default with description := dsc, utype := t } false rest = .ok u1 ∧
      u0 = { u1 with name := p.1 } := by
  unfold create_unit_scan at h
  cases hl : rustLines stdout with
  | nil => rw [hl] at h; exact (Except.noConfusion h)
  | cons next rest =>
    rw [hl] at h; dsimp only at h
    cases hsb : splitAtBytes next 3 with
    | none => rw [hsb] at h; exact (Except.noConfusion h)
    | some sp =>
      rw [hsb] at h; dsimp only at h
      cases hsw : splitAsciiWhitespace sp.2 with
      | nil => rw [hsw] at h; exact (Except.noConfusion h)
      | cons tok items =>
        rw [hsw] at h; dsimp only at h
        cases hr : rsplitOnceChar (rustTrim tok) '.' with
        | none => rw [hr] at h; exact (Except.noConfusion h)
        | some p =>
          rw [hr] at h; dsimp only at h
          cases ht : Type'.from_str p.2 with
          | none => rw [ht] at h; exact (Except.noConfusion h)
          | some t =>
            rw [ht] at h; dsimp only at h
            split at h
            · exact (Except.noConfusion h)
            · rename_i u1 hsc
              injection h with h'
              exact ⟨next, rest, sp, tok, items, _, p, t, u1, rfl, hsb, hsw, hr, ht, hsc, h'.symm⟩

-- a successful create_unit_scan leaves every directive field unset
theorem create_unit_scan_directives {stdout : String} {u0 : Unit'}
    (h : create_unit_scan stdout = .ok u0) :
    u0.wants = none ∧ u0.wanted_by = none ∧ u0.also = none ∧ u0.before = none ∧
    u0.after = none ∧ u0.exec_start = none ∧ u0.exec_reload = none ∧
    u0.restart_policy = none ∧ u0.kill_mode = none := by
  obtain ⟨next, rest, sp, tok, items, dsc, p, t, u1, _, _, _, _, _, hsc, hu0⟩ :=
    create_unit_scan_ok h
  obtain ⟨v1, v2, v3, v4, v5, v6, v7, v8, v9⟩ := scanLines_directives hsc
  subst hu0
  exact ⟨v1, v2, v3, v4, v5, v6, v7, v8, v9⟩

/-- Claim C1, counterexample: for the status header `xx foo.widget - desc`
(unrecognized type suffix `widget`), `create_unit` does not return a
decode-failure error to the caller - it panics (the `panic!` at
src/lib.rs line 293), modelled by `CreateErr.panic`. -/
theorem c1_counterexample :
    create_unit "foo.widget" (.ok true)
      (.ok ⟨"xx foo.widget - desc", "", .code 0⟩)
      (.error ⟨.other, "cat failed"⟩) (.ok true) =
    .error (.panic "For \"foo.widget\" -> Matching variant not found") := by
  rfl

-- when the header name has no dot or an undecodable suffix, the scan panics
theorem create_unit_scan_panics {stdout name_raw : String}
    (hdr : headerNameRaw stdout = some name_raw)
    (hty : ∀ p, rsplitOnceChar name_raw '.' = some p → Type'.from_str p.2 = none) :
    ∃ m, create_unit_scan stdout = .error (.panic m) := by
  unfold create_unit_scan
  unfold headerNameRaw at hdr
  cases hl : rustLines stdout with
  | nil => rw [hl] at hdr; exact (Option.noConfusion hdr)
  | cons next rest =>
    rw [hl] at hdr
    dsimp only at hdr ⊢
    cases hsb : splitAtBytes next 3 with
    | none => rw [hsb] at hdr; exact (Option.noConfusion hdr)
    | some sp =>
      rw [hsb] at hdr
      dsimp only at hdr ⊢
      cases hsw : splitAsciiWhitespace sp.2 with
      | nil => rw [hsw] at hdr; exact (Option.noConfusion hdr)
      | cons tok items =>
        rw [hsw] at hdr
        dsimp only at hdr ⊢
        injection hdr with hdr'
        rw [hdr']
        cases hr : rsplitOnceChar name_raw '.' with
        | none => dsimp only; exact ⟨_, rfl⟩
        | some p =>
          dsimp only
          rw [hty p hr]
          exact ⟨_, rfl⟩

/-- Claim C1, amended: for every status header whose unit name has an
unrecognized type suffix, or no `.`-separated suffix at all, unit
extraction fails, but by a Rust panic aborting the call (with a message
naming the offending unit), not by a `DecodeFailure`-style error value
returned to the caller. -/
theorem c1_amended (name : String) (ex : Except IOError Bool) (st : RunResult)
    (cat : Except IOError RunResult) (act : Except IOError Bool) (name_raw : String)
    (hex : ex ≠ .ok false)
    (hdr : headerNameRaw st.stdout = some name_raw)
    (hty : ∀ p, rsplitOnceChar name_raw '.' = some p → Type'.from_str p.2 = none) :
    ∃ m, create_unit name ex (.ok st) cat act = .error (.panic m) := by
  obtain ⟨m, hm⟩ := create_unit_scan_panics hdr hty
  refine ⟨m, ?_⟩
  unfold create_unit
  cases ex with
  | error e => dsimp only; rw [hm]
  | ok b =>
    cases b with
    | false => exact absurd rfl hex
    | true => dsimp only; rw [hm]

/-- Witness for the amended C1, at the header `xx foo.widget` (suffix
`widget` is not a unit type). -/
theorem c1_amended_witness :
    ∃ m, create_unit "foo.widget" (.ok true)
      (.ok ⟨"xx foo.widget\n", "", .code 0⟩)
      (.ok ⟨"", "", .code 0⟩) (.ok true) = .error (.panic m) :=
  c1_amended "foo.widget" (.ok true) ⟨"xx foo.widget\n", "", .code 0⟩
    (.ok ⟨"", "", .code 0⟩) (.ok true) "foo.widget"
    (by simp) rfl
    (by
      intro p hp
      rw [show rsplitOnceChar "foo.widget" '.' = some ("foo", "widget") from rfl] at hp
      injection hp with hp'
      rw [← hp']
      rfl)

/-- Claim C2, counterexample: for the status of an existing unit whose
type suffix decodes (`cron.service`) with a `Loaded: loaded` line whose
parenthetical lacks the opening `(`, `create_unit` does not degrade the
field to its default - it panics (the `unwrap` at src/lib.rs line 302). -/
theorem c2_counterexample :
    create_unit "cron.service" (.ok true)
      (.ok ⟨"xx cron.service - x\nLoaded: loaded /lib; enabled", "", .code 0⟩)
      (.error ⟨.other, "cat failed"⟩) (.ok true) =
    .error (.panic "called Option::unwrap() on a None value") := by
  rfl

-- a line scanner helper needed for the theorem just below
theorem scanOther_snd_true (u : Unit') (l : String) :
    (scanOther u true l).2 = true := by
  unfold scanOther mainPid
  repeat' split
  all_goals rfl

/-- Claim C2, amended: the only status lines on which `create_unit`'s
scanner can fail are `Loaded: `-prefixed lines (whose `loaded`
parenthetical is malformed); every line that does not carry the
`Loaded: ` prefix after trim_start is absorbed without a panic, any
malformed sub-field on it leaving the affected field at its
`None`/default value.  (The whole-call level additionally panics on an
empty status text and on a header shorter than 3 bytes.) -/
theorem c2_amended (u : Unit') (d : Bool) (l : String)
    (h : rustStartsWith (rustTrimStart l) "Loaded: " = false) :
    ∃ p, scanLine u d l = .ok p := by
  unfold scanLine
  dsimp only
  rw [stripPre_eq_none_of_not_starts h]
  exact ⟨_, rfl⟩

/-- Witness for the amended C2 at a `Main PID: ` line whose pid is not
numeric (the field degrades, the scan succeeds). -/
theorem c2_amended_witness :
    ∃ p, scanLine Unit'.default false "Main PID: oops (gpm)" = .ok p :=
  c2_amended Unit'.default false "Main PID: oops (gpm)" (by decide)

/-- Claim C3, counterexample: in the status block
`Docs: man:abc(8)` / `Memory: 10M` / `man:def(1)`, the unrecognized
line `man:def(1)` follows the recognized-prefix line `Memory: 10M`,
yet it is still offered to the Doc parser and accumulated: `is_doc`
(src/lib.rs line 295) is never reset.  The claim would require
`docs = some [Man "abc"]`. -/
theorem c3_counterexample :
    (create_unit "a.service" (.ok true)
      (.ok ⟨"xx a.service - d\nDocs: man:abc(8)\nMemory: 10M\nman:def(1)", "", .code 0⟩)
      (.error ⟨.other, "cat failed"⟩) (.ok true)).map (fun u => u.docs) =
    .ok (some [Doc.Man "abc", Doc.Man "def"]) := by
  rfl

/-- Claim C3, amended: once any `Docs: ` line has been scanned the
doc-continuation flag stays set for the entire remainder of the status
block - a later recognized-prefix line does not clear it, so subsequent
unrecognized lines are still offered to the Doc parser. -/
theorem c3_amended (u : Unit') (l : String) (p : Unit' × Bool)
    (h : scanLine u true l = .ok p) : p.2 = true := by
  unfold scanLine at h
  dsimp only at h
  cases hld : stripPre (rustTrimStart l) "Loaded: " with
  | some r =>
    rw [hld] at h; dsimp only at h
    cases hh : handleLoaded u r with
    | error e => rw [hh] at h; exact (Except.noConfusion h)
    | ok v =>
      rw [hh] at h; dsimp only [Except.map] at h
      injection h with h'
      rw [← h']
  | none =>
    rw [hld] at h; dsimp only at h
    injection h with h'
    rw [← h']
    exact scanOther_snd_true u (rustTrimStart l)

/-- Witness for the amended C3 at a recognized-prefix line
(`Memory: 5M`) scanned with the flag set. -/
theorem c3_amended_witness :
    (({ Unit'.default with memory := some "5M" }, true) : Unit' × Bool).2 = true :=
  c3_amended Unit'.default "Memory: 5M"
    ({ Unit'.default with memory := some "5M" }, true) rfl

/-- Claim C4: `systemctl_capture` classifies the subprocess exit as the
spec states: codes 0, 1 and 3 succeed, returning the captured output;
code 4 returns a permission-denied error; any other code returns an
unknown-failure error carrying that code; signal death returns a
distinct interrupted error. -/
theorem c4_classification (out err : String) :
    systemctl_capture (.code 0) out err = .ok ⟨out, err, .code 0⟩ ∧
    systemctl_capture (.code 1) out err = .ok ⟨out, err, .code 1⟩ ∧
    systemctl_capture (.code 3) out err = .ok ⟨out, err, .code 3⟩ ∧
    systemctl_capture (.code 4) out err =
      .error ⟨.permissionDenied, "Missing Priviledges or Unit not found"⟩ ∧
    (∀ c : Int, c ≠ 0 → c ≠ 1 → c ≠ 3 → c ≠ 4 →
      systemctl_capture (.code c) out err =
        .error ⟨.other, "Process exited with code: " ++ toString c⟩) ∧
    systemctl_capture .signal out err =
      .error ⟨.interrupted, "Process terminated by signal"⟩ := by
  refine ⟨rfl, rfl, rfl, rfl, ?_, rfl⟩
  intro c h0 h1 h3 h4
  unfold systemctl_capture
  dsimp only
  rw [if_neg (by tauto), if_neg h4]

/-- Witness for C4 at exit code 5 and exit code 4. -/
theorem c4_classification_witness :
    systemctl_capture (.code 5) "o" "e" =
      .error ⟨.other, "Process exited with code: " ++ toString (5 : Int)⟩ ∧
    systemctl_capture (.code 4) "o" "e" =
      .error ⟨.permissionDenied, "Missing Priviledges or Unit not found"⟩ :=
  ⟨(c4_classification "o" "e").2.2.2.2.1 5 (by decide) (by decide) (by decide) (by decide),
   (c4_classification "o" "e").2.2.2.1⟩

/-- Claim C5: `Doc::from_str` on a line with exactly one `:` separator
returns `Man` of the payload text preceding the first `(` (verbatim)
when the scheme is `man`, and `Url` of the scheme re-prefixed with `:`
onto the trimmed payload when the scheme is `http` or `https`; any
other scheme, or a line with zero or two-or-more `:` separators, is a
malformed-descriptor parse error. -/
theorem c5_doc_from_str :
    (∀ s scheme payload, rustSplitChar s ':' = [scheme, payload] →
      (scheme = "man" →
        Doc.from_str s =
          .ok (.Man (String.mk (payload.data.takeWhile (fun c => !(c == '(')))))) ∧
      ((scheme = "http" ∨ scheme = "https") →
        Doc.from_str s = .ok (.Url (scheme ++ ":" ++ rustTrim payload))) ∧
      (scheme ≠ "man" → scheme ≠ "http" → scheme ≠ "https" →
        Doc.from_str s = .error ⟨.invalidData, "unknown type of doc"⟩)) ∧
    (∀ s, (rustSplitChar s ':').length ≠ 2 →
      Doc.from_str s = .error ⟨.invalidData, "malformed doc descriptor"⟩) := by
  constructor
  · intro s scheme payload h
    unfold Doc.from_str
    rw [h]
    dsimp only
    refine ⟨?_, ?_, ?_⟩
    · intro hm
      subst hm
      rw [if_pos rfl, rustSplitChar_head]
    · intro hh
      rcases hh with hh | hh <;> subst hh
      · rw [if_neg (by decide), if_pos rfl]
        rfl
      · rw [if_neg (by decide), if_neg (by decide), if_pos rfl]
        rfl
    · intro h1 h2 h3
      rw [if_neg h1, if_neg h2, if_neg h3]
  · intro s hlen
    unfold Doc.from_str
    rcases hr : rustSplitChar s ':' with _ | ⟨a, _ | ⟨b, _ | ⟨c, tl⟩⟩⟩
    · rfl
    · rfl
    · exact absurd (by rw [hr]; rfl) hlen
    · rfl

/-- Witness for C5 at `man:cron(8)` (one separator, scheme `man`) and
at `man page` (no separator). -/
theorem c5_doc_from_str_witness :
    Doc.from_str "man:cron(8)" =
      .ok (.Man (String.mk ("cron(8)".data.takeWhile (fun c => !(c == '('))))) ∧
    Doc.from_str "man page" = .error ⟨.invalidData, "malformed doc descriptor"⟩ :=
  ⟨(c5_doc_from_str.1 "man:cron(8)" "man" "cron(8)" (by decide)).1 rfl,
   c5_doc_from_str.2 "man page" (by decide)⟩

/-- Claim C6: given the status line
`Loaded: loaded (/lib/systemd/system/cron.service; enabled; vendor preset: enabled)`,
`create_unit` sets state = Loaded, script = the path, auto_start =
Enabled and preset = true on the resulting Unit. -/
theorem c6_loaded_line :
    (create_unit "cron.service" (.ok true)
      (.ok ⟨"● cron.service - Periodic command scheduler\n     Loaded: loaded (/lib/systemd/system/cron.service; enabled; vendor preset: enabled)\n", "", .code 0⟩)
      (.error ⟨.other, "cat failed"⟩) (.ok true)).map
      (fun u => (u.state, u.script, u.auto_start, u.preset)) =
    .ok (State.Loaded, "/lib/systemd/system/cron.service", AutoStartStatus.Enabled, true) := by
  rfl

/-- Claim C7, counterexample: the listing line `cron.service enabled`
passes the dotted-line row filter but has only 2 whitespace-separated
columns; `list_units_full` does not return an error - it panics on the
`parsed[2]` index (src/lib.rs line 225). -/
theorem c7_counterexample :
    list_units_full (.ok ⟨"cron.service enabled", "", .code 0⟩) =
    .error (.panic "index out of bounds: the len is less than 3") := by
  rfl

-- a filtered row with fewer than 3 columns makes the row loop abort
theorem list_units_rows_error {ls : List String}
    (hx : ∃ l ∈ ls, (splitAsciiWhitespace l).length < 3) :
    ∃ m, list_units_rows ls = .error m := by
  induction ls with
  | nil =>
    obtain ⟨l, hl, _⟩ := hx
    exact absurd hl (List.not_mem_nil l)
  | cons l ls ih =>
    unfold list_units_rows
    rcases hsw : splitAsciiWhitespace l with _ | ⟨p0, _ | ⟨p1, _ | ⟨p2, tl⟩⟩⟩
    · exact ⟨_, rfl⟩
    · exact ⟨_, rfl⟩
    · exact ⟨_, rfl⟩
    · obtain ⟨x, hxm, hxs⟩ := hx
      rcases List.mem_cons.mp hxm with hxl | hxls
      · subst hxl
        rw [hsw] at hxs
        simp only [List.length_cons] at hxs
        omega
      · obtain ⟨m, hm⟩ := ih ⟨x, hxls, hxs⟩
        rw [hm]
        exact ⟨m, rfl⟩

/-- Claim C7, amended: a listing line that passes the dotted-line row
filter but has fewer than 3 whitespace-separated columns makes
`list_units_full` fail for the whole listing, but by a Rust index panic
(no partial row sequence is returned), not by an error value returned
to the caller. -/
theorem c7_amended (stdout stderr : String) (es : ExitStatus) (l : String)
    (hmem : l ∈ list_units_filter stdout)
    (hshort : (splitAsciiWhitespace l).length < 3) :
    ∃ m, list_units_full (.ok ⟨stdout, stderr, es⟩) = .error (.panic m) := by
  unfold list_units_full
  dsimp only
  obtain ⟨m, hm⟩ := list_units_rows_error ⟨l, hmem, hshort⟩
  rw [hm]
  exact ⟨m, rfl⟩

/-- Witness for the amended C7 at the listing `a.b x`. -/
theorem c7_amended_witness :
    ∃ m, list_units_full (.ok ⟨"a.b x", "", .code 0⟩) = .error (.panic m) :=
  c7_amended "a.b x" "" (.code 0) "a.b x" (by decide) (by decide)

/-- Claim C8, counterexample: `Loaded: loaded (; enabled)` produces a
record with state = Loaded and an empty script, and a block with a
loaded line followed by `Loaded: masked` produces state = Masked with a
non-empty script - both directions of the claimed invariant fail. -/
theorem c8_counterexample :
    (create_unit "a.service" (.ok true)
      (.ok ⟨"xx a.service - d\nLoaded: loaded (; enabled)", "", .code 0⟩)
      (.error ⟨.other, "cat failed"⟩) (.ok true)).map (fun u => (u.state, u.script)) =
      .ok (State.Loaded, "") ∧
    (create_unit "b.service" (.ok true)
      (.ok ⟨"xx b.service - d\nLoaded: loaded (/x; enabled)\nLoaded: masked", "", .code 0⟩)
      (.error ⟨.other, "cat failed"⟩) (.ok true)).map (fun u => (u.state, u.script)) =
      .ok (State.Masked, "/x") := by
  exact ⟨rfl, rfl⟩

/-- Claim C8, amended: for every Unit record produced by `create_unit`
from a status block whose non-header lines contain at most one
`Loaded: ` line and in which every well-formed `loaded (...)` line has a
non-blank first `;`-field, the invariant holds: state = Loaded implies
the script field is non-empty, and state = Masked implies the script
field remains the empty default. -/
theorem c8_amended (name : String) (ex : Except IOError Bool) (st : RunResult)
    (cat : Except IOError RunResult) (act : Except IOError Bool) (u : Unit')
    (hok : create_unit name ex (.ok st) cat act = .ok u)
    (hcount : (((rustLines st.stdout).drop 1).filter isLoadedLine).length ≤ 1)
    (hblank : ∀ l ∈ (rustLines st.stdout).drop 1, scriptFieldNonblank l = true) :
    (u.state = .Loaded → u.script ≠ "") ∧ (u.state = .Masked → u.script = "") := by
  obtain ⟨u0, a, hscan, hact, hu⟩ := create_unit_ok hok
  obtain ⟨next, rest, sp, tok, items, dsc, p, t, u1, hlines, _, _, _, _, hsc, hu0⟩ :=
    create_unit_scan_ok hscan
  have hdrop : (rustLines st.stdout).drop 1 = rest := by rw [hlines]; rfl
  rw [hdrop] at hcount hblank
  have hinv := scanLines_state_script (u := { Unit'.default with description := dsc, utype := t })
    rfl rfl hcount hblank hsc
  have hustate : u.state = u1.state := by
    rw [hu, hu0]
    cases cat with
    | ok c => exact (applyCat_state_script _ c.stdout).1
    | error e => rfl
  have huscript : u.script = u1.script := by
    rw [hu, hu0]
    cases cat with
    | ok c => exact (applyCat_state_script _ c.stdout).2
    | error e => rfl
  rw [hustate, huscript]
  exact hinv

/-- Witness for the amended C8 at a well-formed single-`Loaded:` status
block. -/
theorem c8_amended_witness :
    (({ Unit'.default with name := "cron", description := some "d", state := State.Loaded, auto_start := AutoStartStatus.Enabled, script := "/lib", active := true } : Unit').state = .Loaded → ({ Unit'.default with name := "cron", description := some "d", state := State.Loaded, auto_start := AutoStartStatus.Enabled, script := "/lib", active := true } : Unit').script ≠ "") ∧
    (({ Unit'.default with name := "cron", description := some "d", state := State.Loaded, auto_start := AutoStartStatus.Enabled, script := "/lib", active := true } : Unit').state = .Masked → ({ Unit'.default with name := "cron", description := some "d", state := State.Loaded, auto_start := AutoStartStatus.Enabled, script := "/lib", active := true } : Unit').script = "") :=
  c8_amended "cron.service" (.ok true)
    ⟨"xx cron.service - d\nLoaded: loaded (/lib; enabled)\n", "", .code 0⟩
    (.error ⟨.other, "cat failed"⟩) (.ok true)
    { Unit'.default with name := "cron", description := some "d", state := State.Loaded, auto_start := AutoStartStatus.Enabled, script := "/lib", active := true }
    rfl (by decide) (by decide)

/-- Claim C9: a syntactically well-formed but unrecognized auto-start
token in the `Loaded:` parenthetical decodes to `Disabled`, and the
record is still produced rather than failing with an error (shown both
for the decoder on every unrecognized token, and on a full status with
the token `quantum-enabled`). -/
theorem c9_autostart_fallback :
    (∀ s, s ≠ "static" → s ≠ "enabled" → s ≠ "enabled-runtime" → s ≠ "disabled" →
      s ≠ "generated" → s ≠ "indirect" → s ≠ "transient" →
      autoStartDecode s = .Disabled) ∧
    (create_unit "a.service" (.ok true)
      (.ok ⟨"xx a.service - d\nLoaded: loaded (/x; quantum-enabled)", "", .code 0⟩)
      (.error ⟨.other, "cat failed"⟩) (.ok true)).map (fun u => (u.auto_start, u.state)) =
      .ok (AutoStartStatus.Disabled, State.Loaded) := by
  constructor
  · intro s h1 h2 h3 h4 h5 h6 h7
    unfold autoStartDecode AutoStartStatus.from_str
    rw [if_neg h1, if_neg h2, if_neg h3, if_neg h4, if_neg h5, if_neg h6, if_neg h7]
  · rfl

/-- Witness for C9 at the token `quantum-enabled`. -/
theorem c9_autostart_fallback_witness :
    autoStartDecode "quantum-enabled" = .Disabled :=
  c9_autostart_fallback.1 "quantum-enabled" (by decide) (by decide) (by decide)
    (by decide) (by decide) (by decide) (by decide)

/-- Claim C10: if the directive-dump (`cat`) query returns an error,
`create_unit` still returns Ok - the error is silently swallowed
(whether the call succeeds does not depend on the `cat` result at all)
and every directive field of the returned Unit is left unset. -/
theorem c10_cat_error_swallowed (name : String) (ex : Except IOError Bool)
    (stR : Except IOError RunResult) (e : IOError) (act : Except IOError Bool) :
    (∀ u, create_unit name ex stR (.error e) act = .ok u →
      u.wants = none ∧ u.wanted_by = none ∧ u.also = none ∧ u.before = none ∧
      u.after = none ∧ u.exec_start = none ∧ u.exec_reload = none ∧
      u.restart_policy = none ∧ u.kill_mode = none) ∧
    (∀ c : RunResult, (create_unit name ex stR (.error e) act).isOk =
      (create_unit name ex stR (.ok c) act).isOk) := by
  constructor
  · intro u h
    cases stR with
    | error e' =>
      exfalso
      unfold create_unit at h
      cases ex with
      | error e2 => exact (Except.noConfusion h)
      | ok b => cases b with
        | false => exact (Except.noConfusion h)
        | true => exact (Except.noConfusion h)
    | ok st =>
      obtain ⟨u0, a, hscan, hact, hu⟩ := create_unit_ok h
      obtain ⟨v1, v2, v3, v4, v5, v6, v7, v8, v9⟩ := create_unit_scan_directives hscan
      rw [hu]
      exact ⟨v1, v2, v3, v4, v5, v6, v7, v8, v9⟩
  · intro c
    unfold create_unit
    cases ex with
    | error e2 =>
      dsimp only
      cases stR with
      | error e' => rfl
      | ok st =>
        dsimp only
        cases create_unit_scan st.stdout with
        | error e3 => rfl
        | ok u0 =>
          dsimp only
          cases act with
          | error e4 => rfl
          | ok a => rfl
    | ok b =>
      cases b with
      | false => rfl
      | true =>
        dsimp only
        cases stR with
        | error e' => rfl
        | ok st =>
          dsimp only
          cases create_unit_scan st.stdout with
          | error e3 => rfl
          | ok u0 =>
            dsimp only
            cases act with
            | error e4 => rfl
            | ok a => rfl

/-- Witness for C10 at a one-header status block with a failing `cat`. -/
theorem c10_cat_error_swallowed_witness :
    (({ Unit'.default with name := "a", description := some "d", active := true } : Unit').wants = none ∧
     ({ Unit'.default with name := "a", description := some "d", active := true } : Unit').wanted_by = none ∧
     ({ Unit'.default with name := "a", description := some "d", active := true } : Unit').also = none ∧
     ({ Unit'.default with name := "a", description := some "d", active := true } : Unit').before = none ∧
     ({ Unit'.default with name := "a", description := some "d", active := true } : Unit').after = none ∧
     ({ Unit'.default with name := "a", description := some "d", active := true } : Unit').exec_start = none ∧
     ({ Unit'.default with name := "a", description := some "d", active := true } : Unit').exec_reload = none ∧
     ({ Unit'.default with name := "a", description := some "d", active := true } : Unit').restart_policy = none ∧
     ({ Unit'.default with name := "a", description := some "d", active := true } : Unit').kill_mode = none) ∧
    ((create_unit "a.service" (.ok true) (.ok ⟨"xx a.service - d", "", .code 0⟩)
        (.error ⟨.other, "cat failed"⟩) (.ok true)).isOk =
      (create_unit "a.service" (.ok true) (.ok ⟨"xx a.service - d", "", .code 0⟩)
        (.ok ⟨"", "", .code 0⟩) (.ok true)).isOk) :=
  ⟨(c10_cat_error_swallowed "a.service" (.ok true) (.ok ⟨"xx a.service - d", "", .code 0⟩)
      ⟨.other, "cat failed"⟩ (.ok true)).1
      { Unit'.default with name := "a", description := some "d", active := true } rfl,
   (c10_cat_error_swallowed "a.service" (.ok true) (.ok ⟨"xx a.service - d", "", .code 0⟩)
      ⟨.other, "cat failed"⟩ (.ok true)).2 ⟨"", "", .code 0⟩⟩
